import Mathlib

/-! The install pipeline of wsldl (`src/install/install.go`)

A shallow embedding of `Install`, `InstallTar`, `InstallExt4Vhdx` and
`detectRootfsFiles`.

* Go strings are Lean strings (sequences of code points).  Every literal the
  program compares against is ASCII, so matching on code points and matching
  on UTF-8 bytes agree.
* A Go `error` is `Option Err`; `none` is `nil`.
* The filesystem is explicit state: a map from files to their contents.  Which
  file a path names is asked of the environment (`OS.file`): two spellings of
  a path (letter case, separators, `.` segments, a link) that reach the same
  file have the same image, and every file operation goes through it.  A file
  that has been opened delivers the content it has when it is read, so a file
  truncated after `os.Open` reads as empty.  `os.Remove` deletes the file the
  path names.  Directories are not in the map; whether a file can be created
  at a path is asked of the environment.
* The virtualization runtime (wsllib / wslreglib), the operating system, the
  network and the gzip codec are parameters of the embedding, gathered in
  `Env`.  The runtime carries its own state `ρ` and does not touch the files
  of the map.
* Every call that leaves the process (runtime primitive, file operation,
  download) is recorded, with what it returned, in `World.trace`; what is
  printed goes to `World.stdout`.
-/

namespace Wsldl

set_option maxRecDepth 100000

/-! ## Values -/

/-- File contents: a sequence of bytes. -/
abbrev Bytes := List Nat

/-- A non-nil Go error, identified by its message. -/
abbrev Err := String

/-- The Go type `error`; `none` is `nil`. -/
abbrev GoError := Option Err

/-! ## `strings` -/

/-- `unicode.ToLower` on the runes that have an ASCII image: `A`..`Z`, the
Kelvin sign U+212A (to `k`) and U+0130 (to `i`).  Every other rune is left
alone here; Go sends it to a rune outside ASCII, which no literal of this
program contains. -/
def toLowerRune (c : Char) : Char :=
  if c.toNat = 0x212A then 'k' else if c.toNat = 0x130 then 'i' else c.toLower

/-- `strings.ToLower`. -/
def ToLower (s : String) : String := ⟨s.data.map toLowerRune⟩

/-- `strings.HasPrefix`. -/
def HasPrefix (s pre : String) : Bool := pre.data.isPrefixOf s.data

/-- `strings.HasSuffix`. -/
def HasSuffix (s suffix : String) : Bool := suffix.data.isSuffixOf s.data

/-- `strconv.Itoa` on a non-negative number. -/
def Itoa (n : Nat) : String := toString n

/-! ## `crypto/sha256` and `encoding/hex` -/

/-- The largest `r` below `2 ^ bits` above `acc` with `r ^ k ≤ n`, found bit by
bit: with `acc = 0`, the integer `k`-th root of `n`. -/
def iroot (k n : Nat) : Nat → Nat → Nat
  | 0, acc => acc
  | bits + 1, acc => if (acc + 2 ^ bits) ^ k ≤ n then iroot k n bits (acc + 2 ^ bits)
      else iroot k n bits acc

/-- The first 64 prime numbers: the numbers from 2 to 311 with no proper
divisor below 18. -/
def sha256Primes : List Nat :=
  (List.range 312).filter fun n => decide (2 ≤ n) && (List.range 18).all fun d =>
    decide (d < 2) || decide (n ≤ d) || n % d != 0

/-- Round constants of SHA-256 (FIPS 180-4, 4.2.2): the first 32 bits of the
fractional parts of the cube roots of the first 64 primes. -/
def sha256K : List Nat := sha256Primes.map fun p => iroot 3 (p * 2 ^ 96) 36 0 % 2 ^ 32

/-- Initial hash value of SHA-256 (FIPS 180-4, 5.3.3): the first 32 bits of the
fractional parts of the square roots of the first 8 primes. -/
def sha256Init : List Nat :=
  (sha256Primes.take 8).map fun p => iroot 2 (p * 2 ^ 64) 36 0 % 2 ^ 32

/-- Rotation to the right of a 32-bit word. -/
def rotr (x n : Nat) : Nat := ((x >>> n) ||| (x <<< (32 - n))) % 2 ^ 32

/-- The `k` low-order bytes of `n`, most significant first. -/
def bigEndian (n : Nat) : Nat → List Nat
  | 0 => []
  | k + 1 => (n >>> (8 * k)) % 256 :: bigEndian n k

/-- Padding of a message to a whole number of 64-byte blocks. -/
def sha256Pad (msg : Bytes) : Bytes :=
  msg.map (· % 256) ++ 0x80 :: List.replicate ((119 - msg.length % 64) % 64) 0
    ++ bigEndian (8 * msg.length) 8

/-- The number written by a sequence of bytes, most significant first. -/
def word (b : List Nat) : Nat := b.foldl (fun acc x => acc * 256 + x) 0

/-- The first `k` consecutive pieces of length `n` of a list. -/
def chunksOf (n : Nat) : Nat → List Nat → List (List Nat)
  | 0, _ => []
  | k + 1, l => l.take n :: chunksOf n k (l.drop n)

/-- Message schedule of one block: 64 words. -/
def sha256Schedule (block : List Nat) : List Nat :=
  (List.range 48).foldl (fun w _ =>
    let n := w.length
    let w15 := w.getD (n - 15) 0
    let w2 := w.getD (n - 2) 0
    let s0 := rotr w15 7 ^^^ rotr w15 18 ^^^ (w15 >>> 3)
    let s1 := rotr w2 17 ^^^ rotr w2 19 ^^^ (w2 >>> 10)
    w ++ [(w.getD (n - 16) 0 + s0 + w.getD (n - 7) 0 + s1) % 2 ^ 32])
    ((chunksOf 4 16 block).map word)

/-- One round of the compression function, on the working variables `a`..`h`. -/
def sha256Round (s : List Nat) (kw : Nat × Nat) : List Nat :=
  match s with
  | [a, b, c, d, e, f, g, h] =>
    let s1 := rotr e 6 ^^^ rotr e 11 ^^^ rotr e 25
    let ch := (e &&& f) ^^^ ((e ^^^ 0xffffffff) &&& g)
    let t1 := (h + s1 + ch + kw.1 + kw.2) % 2 ^ 32
    let s0 := rotr a 2 ^^^ rotr a 13 ^^^ rotr a 22
    let maj := (a &&& b) ^^^ (a &&& c) ^^^ (b &&& c)
    let t2 := (s0 + maj) % 2 ^ 32
    [(t1 + t2) % 2 ^ 32, a, b, c, (d + t1) % 2 ^ 32, e, f, g]
  | _ => s

/-- Compression of one block into the hash value. -/
def sha256Block (h : List Nat) (block : List Nat) : List Nat :=
  List.zipWith (fun x y => (x + y) % 2 ^ 32) h
    ((sha256K.zip (sha256Schedule block)).foldl sha256Round h)

/-- The SHA-256 digest (32 bytes) of a message: what `sha256.New()` holds
after the message has been copied into it, read off by `h.Sum(nil)`. -/
def sha256Sum (msg : Bytes) : Bytes :=
  let p := sha256Pad msg
  (((chunksOf 64 (p.length / 64) p).foldl sha256Block sha256Init).map
    (fun w => bigEndian w 4)).flatten

/-- One digit of `hex.EncodeToString`: lower case. -/
def hexDigit (n : Nat) : Char := "0123456789abcdef".data.getD n '0'

/-- `hex.EncodeToString`. -/
def EncodeToString (b : Bytes) : String :=
  ⟨(b.map (fun x => [hexDigit (x / 16 % 16), hexDigit (x % 16)])).flatten⟩

/-! ## The world outside the process -/

/-- The record `wslreg.Profile`: the two fields the installer touches, and the
remaining ones kept together. -/
structure Profile where
  DistributionName : String
  BasePath : String
  Flags : Nat
  Rest : List (String × String)
deriving DecidableEq, Repr

/-- A call that leaves the process, with what it returned. -/
inductive Event
  | WslRegisterDistribution (name rootPath : String) (err : GoError)
  | WslUnregisterDistribution (name : String) (err : GoError)
  | GetProfileFromName (name : String) (prof : Profile) (err : GoError)
  | WriteProfile (prof : Profile) (err : GoError)
  | DownloadFile (url dest sum : String) (err : GoError)
  | Open (path : String) (err : GoError)
  | Create (path : String) (err : GoError)
  | Remove (path : String)
  | Sum (path : String) (err : GoError)
  | NewReader (path : String) (err : GoError)
  | Copy (dest : String) (written : Bytes) (err : GoError)
deriving DecidableEq, Repr

/-- The events that are calls of a runtime primitive. -/
def Event.isRuntimeCall : Event → Bool
  | .WslRegisterDistribution _ _ _ => true
  | .WslUnregisterDistribution _ _ => true
  | .GetProfileFromName _ _ _ => true
  | .WriteProfile _ _ => true
  | _ => false

/-- The explicit state: files, the state of the runtime, and the record of
what the process did. -/
structure World (ρ : Type) where
  /-- The content of each file, keyed by the image of its paths under `OS.file`. -/
  fs : String → Option Bytes
  rt : ρ
  trace : List Event
  stdout : List String

/-- A world in which the process has not done anything yet. -/
def World.init {ρ : Type} (fs : String → Option Bytes) (rt : ρ) : World ρ :=
  ⟨fs, rt, [], []⟩

/-- Record an event. -/
def World.log {ρ : Type} (w : World ρ) (e : Event) : World ρ :=
  { w with trace := w.trace ++ [e] }

/-- `fmt.Printf` / `fmt.Println`. -/
def World.print {ρ : Type} (w : World ρ) (s : String) : World ρ :=
  { w with stdout := w.stdout ++ [s] }

/-- The file map with one file changed. -/
def setFile (fs : String → Option Bytes) (file : String) (content : Option Bytes) :
    String → Option Bytes :=
  fun f => if f = file then content else fs f

/-- The virtualization runtime: `wsllib.WslRegisterDistribution`,
`wsllib.WslUnregisterDistribution`, `wslreg.GetProfileFromName`,
`wslreg.WriteProfile` and the constant `wsllib.FlagEnableWsl2`. -/
structure Wsl (ρ : Type) where
  WslRegisterDistribution : String → String → ρ → GoError × ρ
  WslUnregisterDistribution : String → ρ → GoError × ρ
  GetProfileFromName : String → ρ → Profile × GoError
  WriteProfile : Profile → ρ → GoError × ρ
  FlagEnableWsl2 : Nat

/-- The operating system and the standard library functions whose result
depends on it. -/
structure OS where
  /-- Result of `os.TempDir()`. -/
  TempDir : String
  /-- Path returned by `os.Executable()`. -/
  Executable : String
  /-- `rand.Intn`. -/
  Intn : Nat → Nat
  /-- `filepath.Base`. -/
  Base : String → String
  /-- `filepath.Dir`. -/
  Dir : String → String
  /-- `filepath.Join` of two elements. -/
  Join : String → String → String
  /-- The file a path names: paths that reach the same file have the same image. -/
  file : String → String
  /-- The error of `os.Create` at a path, `none` when the file can be created. -/
  createErr : String → GoError
  /-- A fault while reading a file: the number of bytes delivered before it, and the error. -/
  readFault : String → Option (Nat × Err)
  /-- A fault while writing a file: the number of bytes accepted before it, and the error. -/
  writeFault : String → Option (Nat × Err)

/-- The decoder of `compress/gzip`, taken abstractly. -/
structure Gzip where
  /-- The error of `gzip.NewReader` on a stream, `none` when the header is accepted. -/
  NewReader : Bytes → GoError
  /-- The bytes obtained by reading the decoder to its end, and the error that stopped it. -/
  inflate : Bytes → Bytes × GoError

/-- What an HTTP transfer delivers: the bytes received, and the error that
interrupted it (`none` when it completed). -/
structure Transfer where
  received : Bytes
  err : GoError

/-- Everything the pipeline is run against. -/
structure Env (ρ : Type) where
  wsl : Wsl ρ
  os : OS
  gzip : Gzip
  net : String → Transfer

/-! ## Primitives -/

/-- The call `wsllib.WslRegisterDistribution(name, rootPath)`. -/
def WslRegisterDistribution {ρ : Type} (wsl : Wsl ρ) (name rootPath : String) (w : World ρ) :
    GoError × World ρ :=
  let r := wsl.WslRegisterDistribution name rootPath w.rt
  (r.1, { w with rt := r.2, trace := w.trace ++ [Event.WslRegisterDistribution name rootPath r.1] })

/-- The call `wsllib.WslUnregisterDistribution(name)`. -/
def WslUnregisterDistribution {ρ : Type} (wsl : Wsl ρ) (name : String) (w : World ρ) :
    GoError × World ρ :=
  let r := wsl.WslUnregisterDistribution name w.rt
  (r.1, { w with rt := r.2, trace := w.trace ++ [Event.WslUnregisterDistribution name r.1] })

/-- The call `wslreg.GetProfileFromName(name)`. -/
def GetProfileFromName {ρ : Type} (wsl : Wsl ρ) (name : String) (w : World ρ) :
    (Profile × GoError) × World ρ :=
  let r := wsl.GetProfileFromName name w.rt
  (r, w.log (Event.GetProfileFromName name r.1 r.2))

/-- The call `wslreg.WriteProfile(prof)`. -/
def WriteProfile {ρ : Type} (wsl : Wsl ρ) (prof : Profile) (w : World ρ) : GoError × World ρ :=
  let r := wsl.WriteProfile prof w.rt
  (r.1, { w with rt := r.2, trace := w.trace ++ [Event.WriteProfile prof r.1] })

/-- `os.Create`: the file the path names exists and is empty afterwards,
whatever path it had been opened under. -/
def osCreate {ρ : Type} (os : OS) (path : String) (w : World ρ) : GoError × World ρ :=
  match os.createErr path with
  | some err => (some err, w.log (Event.Create path (some err)))
  | none => (none, { w with fs := setFile w.fs (os.file path) (some []),
                            trace := w.trace ++ [Event.Create path none] })

/-- `os.Open`: fails when the path names no file. -/
def osOpen {ρ : Type} (os : OS) (path : String) (w : World ρ) : GoError × World ρ :=
  match w.fs (os.file path) with
  | none =>
    let err := "open " ++ path ++ ": The system cannot find the file specified."
    (some err, w.log (Event.Open path (some err)))
  | some _ => (none, w.log (Event.Open path none))

/-- `os.Remove`; its result is not looked at by any caller. -/
def osRemove {ρ : Type} (os : OS) (path : String) (w : World ρ) : World ρ :=
  { w with fs := setFile w.fs (os.file path) none, trace := w.trace ++ [Event.Remove path] }

/-- What an open file delivers when it is read to its end: the content the
file has at that moment, cut short by a read fault. -/
def readStream (os : OS) (fs : String → Option Bytes) (path : String) : Bytes × GoError :=
  let content := (fs (os.file path)).getD []
  match os.readFault path with
  | some (n, err) => (content.take n, some err)
  | none => (content, none)

/-- `io.Copy(h, f)` into a SHA-256 hash followed by `h.Sum(nil)`. -/
def hashFile {ρ : Type} (os : OS) (path : String) (w : World ρ) :
    (Bytes × GoError) × World ρ :=
  let s := readStream os w.fs path
  ((sha256Sum s.1, s.2), w.log (Event.Sum path s.2))

/-- What `io.Copy(dest, r)` gets into the file `dest` and the error it returns,
`r` delivering `stream.1` and then the error `stream.2`: a write fault cuts
the copy short. -/
def copyOutcome (os : OS) (dest : String) (stream : Bytes × GoError) : Bytes × GoError :=
  match os.writeFault dest with
  | some (n, err) => if n < stream.1.length then (stream.1.take n, some err) else stream
  | none => stream

/-- `io.Copy(dest, r)` into a file just created. -/
def ioCopy {ρ : Type} (os : OS) (dest : String) (stream : Bytes × GoError) (w : World ρ) :
    GoError × World ρ :=
  let r := copyOutcome os dest stream
  (r.2, { w with fs := setFile w.fs (os.file dest) (some r.1),
                 trace := w.trace ++ [Event.Copy dest r.1 r.2] })

/-- Modelled from the spec: the function `utils.DownloadFile(url, dest,
progressBarWidth)` of the package `lib/utils`, which `install.go` imports and
whose body is not part of the embedded sources.  It streams the resource into
the file `dest` and computes the SHA-256 digest of what it wrote as a
byproduct; it fails when the file cannot be created or when the transfer fails
or is interrupted, in which case what was received so far stays in the file. -/
def DownloadFile {ρ : Type} (env : Env ρ) (url dest : String) (_progressBarWidth : Nat)
    (w : World ρ) : (String × GoError) × World ρ :=
  match env.os.createErr dest with
  | some err => (("", some err), w.log (Event.DownloadFile url dest "" (some err)))
  | none =>
    let t := env.net url
    let sum := if t.err = none then EncodeToString (sha256Sum t.received) else ""
    ((sum, t.err), { w with fs := setFile w.fs (env.os.file dest) (some t.received),
                            trace := w.trace ++ [Event.DownloadFile url dest sum t.err] })

/-! ## `install.go` -/

/-- The list `defaultRootFiles` (lines 22-37). -/
def defaultRootFiles : List String := [
  "install.tar",
  "install.tar.gz",
  "install.tgz",
  "install.tar.zst",
  "install.tar.xz",
  "rootfs.tar",
  "rootfs.tar.gz",
  "rootfs.tgz",
  "rootfs.tar.zst",
  "rootfs.tar.xz",
  "install.ext4.vhdx",
  "install.ext4.vhdx.gz"]

/-- The function `InstallTar` (lines 102-105). -/
def InstallTar {ρ : Type} (env : Env ρ) (name rootPath : String) (w : World ρ) :
    GoError × World ρ :=
  WslRegisterDistribution env.wsl name rootPath w

/-- The function `InstallExt4Vhdx` (lines 107-171).  The deferred `Close` calls
have no effect on the state modelled here. -/
def InstallExt4Vhdx {ρ : Type} (env : Env ρ) (name rootPath : String) (w : World ρ) :
    GoError × World ρ :=
  -- create empty tar
  let tmptar := env.os.TempDir
  if tmptar = "" then (some "failed to create temp directory", w) else
  let tmptar := tmptar ++ "\\em-vhdx-temp.tar"
  match osCreate env.os tmptar w with
  | (some err, w) => (some err, w)
  | (none, w) =>
  -- initial empty instance entry
  match WslRegisterDistribution env.wsl name tmptar w with
  | (some err, w) => (some err, w)
  | (none, w) =>
  let w := osRemove env.os tmptar w
  -- get profile of instance
  match GetProfileFromName env.wsl name w with
  | ((prof, err), w) =>
  if prof.BasePath = "" then (err, w) else
  -- remove instance temporary
  match WslUnregisterDistribution env.wsl name w with
  | (some err, w) => (some err, w)
  | (none, w) =>
  -- copy vhdx to destination directory
  match osOpen env.os rootPath w with
  | (some err, w) => (some err, w)
  | (none, w) =>
  match osCreate env.os (prof.BasePath ++ "\\ext4.vhdx") w with
  | (some err, w) => (some err, w)
  | (none, w) =>
  -- uncompress and copy
  let rootPathLower := ToLower rootPath
  let src := readStream env.os w.fs rootPath
  let copied : GoError × World ρ :=
    if HasSuffix rootPathLower ".gz" then
      -- compressed with gzip
      let err := env.gzip.NewReader src.1
      let w := w.log (Event.NewReader rootPath err)
      match err with
      | some err => (some err, w)
      | none =>
        let gr := env.gzip.inflate src.1
        ioCopy env.os (prof.BasePath ++ "\\ext4.vhdx") (gr.1, gr.2.orElse fun _ => src.2) w
    else
      -- not compressed
      ioCopy env.os (prof.BasePath ++ "\\ext4.vhdx") src w
  match copied with
  | (some err, w) => (some err, w)
  | (none, w) =>
  -- write registry
  let prof := { prof with Flags := prof.Flags ||| env.wsl.FlagEnableWsl2 }
  WriteProfile env.wsl prof w

/-- What `Install` holds when it reaches line 84: the path it installs from,
that path in lower case, the digest it has computed (empty when none), and
the temporary file whose `os.Remove` is deferred. -/
structure Artifact where
  rootPath : String
  rootPathLower : String
  sha256Actual : String
  deferred : Option String
deriving DecidableEq, Repr

/-- Lines 41-82 of `Install`: a URL is downloaded to a temporary file, a local
path is hashed when a digest is expected.  An early return after line 59 runs
the deferred `os.Remove(tmpRootFn)` on its way out. -/
def acquire {ρ : Type} (env : Env ρ) (rootPath sha256Sum : String) (showProgress : Bool)
    (w : World ρ) : Except Err Artifact × World ρ :=
  let rootPathLower := ToLower rootPath
  let w := if showProgress then w.print ("Using: " ++ rootPath ++ "\n") else w
  if HasPrefix rootPathLower "http://" || HasPrefix rootPathLower "https://" then
    let w := if showProgress then w.print "Downloading...\n" else w
    let progressBarWidth := if showProgress then 35 else 0
    let tmpRootFn := env.os.TempDir
    if tmpRootFn = "" then (.error "failed to create temp directory", w) else
    let tmpRootFn := tmpRootFn ++ "\\" ++ Itoa (env.os.Intn 10000) ++ env.os.Base rootPath
    match DownloadFile env rootPath tmpRootFn progressBarWidth w with
    | ((_, some err), w) => (.error err, osRemove env.os tmpRootFn w)
    | ((sha256Actual, none), w) =>
      (.ok ⟨tmpRootFn, ToLower tmpRootFn, sha256Actual, some tmpRootFn⟩, w.print "\n")
  else if sha256Sum ≠ "" then
    let w := if showProgress then w.print "Calculating checksum...\n" else w
    match osOpen env.os rootPath w with
    | (some err, w) => (.error err, w)
    | (none, w) =>
      match hashFile env.os rootPath w with
      | ((_, some err), w) => (.error err, w)
      | ((sum, none), w) => (.ok ⟨rootPath, rootPathLower, EncodeToString sum, none⟩, w)
  else (.ok ⟨rootPath, rootPathLower, "", none⟩, w)

/-- Lines 84-99 of `Install`: the digest is printed and compared, then the
installer is chosen from the end of the lower-cased path. -/
def verifyAndInstall {ρ : Type} (env : Env ρ) (name : String) (a : Artifact)
    (sha256Sum : String) (showProgress : Bool) (w : World ρ) : GoError × World ρ :=
  let w := if showProgress ∧ a.sha256Actual ≠ "" then
    w.print ("Checksum(SHA256): " ++ a.sha256Actual ++ "\n") else w
  if sha256Sum ≠ "" ∧ a.sha256Actual ≠ "" ∧ sha256Sum ≠ a.sha256Actual then
    (some "checksum mismatch", w)
  else
    let w := if showProgress then w.print "Installing...\n" else w
    if HasSuffix a.rootPathLower "ext4.vhdx" || HasSuffix a.rootPathLower "ext4.vhdx.gz" then
      InstallExt4Vhdx env name a.rootPath w
    else
      InstallTar env name a.rootPath w

/-- The function `Install` (lines 40-100): `acquire`, then `verifyAndInstall`,
then the deferred removal of the downloaded file. -/
def Install {ρ : Type} (env : Env ρ) (name rootPath sha256Sum : String) (showProgress : Bool)
    (w : World ρ) : GoError × World ρ :=
  match acquire env rootPath sha256Sum showProgress w with
  | (.error err, w) => (some err, w)
  | (.ok a, w) =>
    let r := verifyAndInstall env name a sha256Sum showProgress w
    match a.deferred with
    | some tmpRootFn => (r.1, osRemove env.os tmpRootFn r.2)
    | none => r

/-- The loop of `detectRootfsFiles` (lines 176-183) over the names still to be
tried; `stat` is the error returned by `os.Stat`. -/
def detectLoop (os : OS) (stat : String → GoError) (efDir : String) : List String → String
  | [] => "rootfs.tar.gz"
  | rootFile :: rest =>
    let rootPath := os.Join efDir rootFile
    if stat rootPath = none then rootPath else detectLoop os stat efDir rest

/-- The function `detectRootfsFiles` (lines 173-184). -/
def detectRootfsFiles (os : OS) (stat : String → GoError) : String :=
  let efPath := os.Executable
  let efDir := os.Dir efPath
  detectLoop os stat efDir defaultRootFiles

/-! ## Vocabulary of the statements -/

/-- The events that write the file at `path`: its creation and a copy into it. -/
def Event.writes (path : String) : Event → Bool
  | .Create p _ => p == path
  | .Copy p _ _ => p == path
  | _ => false

/-- The error a call returned; the result of `os.Remove` is dropped by its
callers and counts as `nil`. -/
def Event.err : Event → GoError
  | .WslRegisterDistribution _ _ err => err
  | .WslUnregisterDistribution _ err => err
  | .GetProfileFromName _ _ err => err
  | .WriteProfile _ err => err
  | .DownloadFile _ _ _ err => err
  | .Open _ err => err
  | .Create _ err => err
  | .Remove _ => none
  | .Sum _ err => err
  | .NewReader _ err => err
  | .Copy _ _ err => err

/-- A property of every way of cutting a list into what comes before an
element, the element, and what comes after it; `acc` is what has been walked
over already. -/
def AllSplits {α : Type} (P : List α → α → List α → Prop) : List α → List α → Prop
  | _, [] => True
  | acc, e :: rest => P acc e rest ∧ AllSplits P (acc ++ [e]) rest

/-- The profile the runtime gives back for the placeholder registered from
the state `rt`. -/
def placeholderProfile {ρ : Type} (env : Env ρ) (name : String) (rt : ρ) : Profile :=
  (env.wsl.GetProfileFromName name
    (env.wsl.WslRegisterDistribution name (env.os.TempDir ++ "\\em-vhdx-temp.tar") rt).2).1

/-- That profile with `FlagEnableWsl2` or-ed into its flags and nothing else
changed. -/
def patchedProfile {ρ : Type} (env : Env ρ) (name : String) (rt : ρ) : Profile :=
  { placeholderProfile env name rt with
    Flags := (placeholderProfile env name rt).Flags ||| env.wsl.FlagEnableWsl2 }

/-- The file the image goes to: `ext4.vhdx` under the base path the runtime
assigned. -/
def imagePath {ρ : Type} (env : Env ρ) (name : String) (rt : ρ) : String :=
  (placeholderProfile env name rt).BasePath ++ "\\ext4.vhdx"

/-- The four runtime calls of a complete run of `InstallExt4Vhdx` started with
the runtime in state `rt`, in order, each with what the runtime answers:
registration of the placeholder archive, the profile read, unregistration,
and the write of the patched profile. -/
def protocol {ρ : Type} (env : Env ρ) (name : String) (rt : ρ) : List Event :=
  let tmptar := env.os.TempDir ++ "\\em-vhdx-temp.tar"
  let reg := env.wsl.WslRegisterDistribution name tmptar rt
  let got := env.wsl.GetProfileFromName name reg.2
  let unreg := env.wsl.WslUnregisterDistribution name reg.2
  [Event.WslRegisterDistribution name tmptar reg.1,
   Event.GetProfileFromName name got.1 got.2,
   Event.WslUnregisterDistribution name unreg.1,
   Event.WriteProfile (patchedProfile env name rt)
     (env.wsl.WriteProfile (patchedProfile env name rt) unreg.2).1]

/-! ## A concrete environment

Used to run the pipeline on explicit inputs. -/

/-- A runtime keeping the list of registered profiles.  Registration fails on
a name already present and otherwise records a profile stored under `base`;
the profile of an unknown name is empty and comes with an error. -/
def registry (base : String) : Wsl (List Profile) where
  WslRegisterDistribution name _ reg :=
    if reg.any (fun p => p.DistributionName == name) then
      (some "the distribution name is already registered", reg)
    else (none, ⟨name, base, 7, []⟩ :: reg)
  WslUnregisterDistribution name reg :=
    if reg.any (fun p => p.DistributionName == name) then
      (none, reg.filter (fun p => p.DistributionName != name))
    else (some "the distribution is not registered", reg)
  GetProfileFromName name reg :=
    match reg.find? (fun p => p.DistributionName == name) with
    | some p => (p, none)
    | none => (⟨"", "", 0, []⟩, some "profile not found")
  WriteProfile prof reg :=
    (none, prof :: reg.filter (fun p => p.DistributionName != prof.DistributionName))
  FlagEnableWsl2 := 8

/-- An operating system without faults, paths joined by a backslash, every
spelling of a path naming a file of its own. -/
def plainOS : OS where
  TempDir := "C:\\Temp"
  Executable := "C:\\wsl\\Distro.exe"
  Intn n := 4711 % n
  Base _ := "rootfs.tar.gz"
  Dir _ := "C:\\wsl"
  Join d f := d ++ "\\" ++ f
  file p := p
  createErr _ := none
  readFault _ := none
  writeFault _ := none

/-- The runtime `registry base` whose profile read, besides the profile,
returns the error `err`. -/
def registryReadError (base : String) (err : Err) : Wsl (List Profile) :=
  { registry base with
    GetProfileFromName := fun name reg => (((registry base).GetProfileFromName name reg).1,
      some err) }

/-- An operating system like `plainOS` on which letter case does not
distinguish files. -/
def foldingOS : OS := { plainOS with file := fun p => ToLower p }

/-- A codec whose compressed form of `c` is `31 :: 139 :: c`. -/
def toyGzip : Gzip where
  NewReader b := if b.take 2 = [31, 139] then none else some "gzip: invalid header"
  inflate b := (b.drop 2, none)

/-- The file map holding a single file. -/
def oneFile (path : String) (content : Bytes) : String → Option Bytes :=
  setFile (fun _ => none) path (some content)

/-- The environment made of `registry base`, `plainOS` and `toyGzip`, with a
network that delivers `[1, 2, 3]` for every URL. -/
def plainEnv (base : String) : Env (List Profile) where
  wsl := registry base
  os := plainOS
  gzip := toyGzip
  net _ := ⟨[1, 2, 3], none⟩

/-- The environment `plainEnv base` with the runtime `registryReadError base err`. -/
def readErrorEnv (base : String) (err : Err) : Env (List Profile) :=
  { plainEnv base with wsl := registryReadError base err }

/-- The environment `plainEnv base` on the operating system `foldingOS`. -/
def foldingEnv (base : String) : Env (List Profile) :=
  { plainEnv base with os := foldingOS }

/-! ## SHA-256 test vectors -/

/-- The digests of `abc` (one block) and of the 56-byte message of FIPS 180-2
appendix B.2 (two blocks). -/
theorem sha256Sum_test_vectors :
    EncodeToString (sha256Sum [97, 98, 99])
      = "ba7816bf8f01cfea414140de5dae2223b00361a396177a9cb410ff61f20015ad" ∧
    EncodeToString (sha256Sum
        ("abcdbcdecdefdefgefghfghighijhijkijkljklmklmnlmnomnopnopq".data.map Char.toNat))
      = "248d6a61d20638b8e5c026930c3e6039a33ce45964ff2167f6ecedd419db06c1" := by
  decide

/-! ## The default-artifact locator -/

theorem detectLoop_found (os : OS) (stat : String → GoError) (efDir rootFile : String)
    (before after : List String)
    (hbefore : ∀ f ∈ before, stat (os.Join efDir f) ≠ none)
    (hfile : stat (os.Join efDir rootFile) = none) :
    detectLoop os stat efDir (before ++ rootFile :: after) = os.Join efDir rootFile := by
  induction before with
  | nil => simp [detectLoop, hfile]
  | cons f rest ih =>
    have hf : stat (os.Join efDir f) ≠ none := hbefore f (by simp)
    have hrest : ∀ g ∈ rest, stat (os.Join efDir g) ≠ none :=
      fun g hg => hbefore g (by simp [hg])
    simp [detectLoop, hf, ih hrest]

theorem detectLoop_fallback (os : OS) (stat : String → GoError) (efDir : String)
    (names : List String) (hnone : ∀ f ∈ names, stat (os.Join efDir f) ≠ none) :
    detectLoop os stat efDir names = "rootfs.tar.gz" := by
  induction names with
  | nil => rfl
  | cons f rest ih =>
    have hf : stat (os.Join efDir f) ≠ none := hnone f (by simp)
    have hrest : ∀ g ∈ rest, stat (os.Join efDir g) ≠ none :=
      fun g hg => hnone g (by simp [hg])
    simp [detectLoop, hf, ih hrest]

/-- C8: with `stat` telling which paths exist, `detectRootfsFiles` returns the
executable directory joined with the first name of the priority list whose
joined path exists (every earlier candidate being absent), and the bare name
`rootfs.tar.gz` when no candidate exists; the priority list is the one of the
specification; a directory holding only `rootfs.tgz` gives that file's path. -/
theorem detectRootfsFiles_first_existing (os : OS) (stat : String → GoError) :
    defaultRootFiles =
        ["install.tar", "install.tar.gz", "install.tgz", "install.tar.zst", "install.tar.xz",
         "rootfs.tar", "rootfs.tar.gz", "rootfs.tgz", "rootfs.tar.zst", "rootfs.tar.xz",
         "install.ext4.vhdx", "install.ext4.vhdx.gz"] ∧
    (∀ (before : List String) (rootFile : String) (after : List String),
        defaultRootFiles = before ++ rootFile :: after →
        (∀ f ∈ before, stat (os.Join (os.Dir os.Executable) f) ≠ none) →
        stat (os.Join (os.Dir os.Executable) rootFile) = none →
        detectRootfsFiles os stat = os.Join (os.Dir os.Executable) rootFile) ∧
    ((∀ f ∈ defaultRootFiles, stat (os.Join (os.Dir os.Executable) f) ≠ none) →
        detectRootfsFiles os stat = "rootfs.tar.gz") ∧
    ((∀ f ∈ defaultRootFiles,
          (stat (os.Join (os.Dir os.Executable) f) = none ↔ f = "rootfs.tgz")) →
        detectRootfsFiles os stat = os.Join (os.Dir os.Executable) "rootfs.tgz") := by
  refine ⟨rfl, ?_, ?_, ?_⟩
  · intro before rootFile after hsplit hbefore hfile
    unfold detectRootfsFiles
    simp only [hsplit]
    exact detectLoop_found os stat _ rootFile before after hbefore hfile
  · intro hnone
    exact detectLoop_fallback os stat _ defaultRootFiles hnone
  · intro honly
    have hsplit : defaultRootFiles =
        ["install.tar", "install.tar.gz", "install.tgz", "install.tar.zst", "install.tar.xz",
         "rootfs.tar", "rootfs.tar.gz"] ++ "rootfs.tgz" ::
        ["rootfs.tar.zst", "rootfs.tar.xz", "install.ext4.vhdx", "install.ext4.vhdx.gz"] := rfl
    unfold detectRootfsFiles
    simp only [hsplit]
    apply detectLoop_found
    · intro f hf
      have hmem : f ∈ defaultRootFiles := by
        rw [hsplit]
        exact List.mem_append_left _ hf
      have hne : f ≠ "rootfs.tgz" := by
        intro h
        subst h
        revert hf
        decide
      intro h
      exact hne ((honly f hmem).1 h)
    · exact (honly "rootfs.tgz" (by decide)).2 rfl

/-- Witness of C8: next to `C:\wsl\Distro.exe`, a directory holding
`rootfs.tar.gz` and `install.ext4.vhdx` yields `C:\wsl\rootfs.tar.gz`, an empty
one yields the bare `rootfs.tar.gz`, and one holding only `rootfs.tgz` yields
`C:\wsl\rootfs.tgz`. -/
theorem detectRootfsFiles_first_existing_witness :
    detectRootfsFiles plainOS
        (fun p => if p = "C:\\wsl\\rootfs.tar.gz" ∨ p = "C:\\wsl\\install.ext4.vhdx"
          then none else some "not found") = "C:\\wsl\\rootfs.tar.gz" ∧
    detectRootfsFiles plainOS (fun _ => some "not found") = "rootfs.tar.gz" ∧
    detectRootfsFiles plainOS
        (fun p => if p = "C:\\wsl\\rootfs.tgz" then none else some "not found")
      = "C:\\wsl\\rootfs.tgz" :=
  ⟨(detectRootfsFiles_first_existing plainOS _).2.1
      ["install.tar", "install.tar.gz", "install.tgz", "install.tar.zst", "install.tar.xz",
       "rootfs.tar"] "rootfs.tar.gz"
      ["rootfs.tgz", "rootfs.tar.zst", "rootfs.tar.xz", "install.ext4.vhdx",
       "install.ext4.vhdx.gz"] rfl (by decide) (by decide),
   (detectRootfsFiles_first_existing plainOS _).2.2.1 (by decide),
   (detectRootfsFiles_first_existing plainOS _).2.2.2 (by decide)⟩

/-! ## The classifier -/

theorem HasSuffix_iff (s suffix : String) :
    HasSuffix s suffix = true ↔ ∃ t : String, s = t ++ suffix := by
  unfold HasSuffix
  rw [List.isSuffixOf_iff_suffix]
  constructor
  · rintro ⟨t, ht⟩
    exact ⟨⟨t⟩, by apply String.ext; simp [ht]⟩
  · rintro ⟨t, ht⟩
    exact ⟨t.data, by rw [ht]; simp⟩

theorem acquire_local {ρ : Type} (env : Env ρ) (rootPath sha256Sum : String)
    (showProgress : Bool) (w w1 : World ρ) (a : Artifact)
    (hlocal : (HasPrefix (ToLower rootPath) "http://"
      || HasPrefix (ToLower rootPath) "https://") = false)
    (hacq : acquire env rootPath sha256Sum showProgress w = (.ok a, w1)) :
    a.rootPath = rootPath ∧ a.rootPathLower = ToLower rootPath ∧ a.deferred = none := by
  unfold acquire at hacq
  simp only [hlocal, Bool.false_eq_true, ↓reduceIte] at hacq
  by_cases hsum : sha256Sum = ""
  · simp [hsum] at hacq
    rw [← hacq.1]
    simp
  · simp only [ne_eq, hsum, not_false_eq_true, ↓reduceIte] at hacq
    split at hacq
    · simp at hacq
    · split at hacq
      · simp at hacq
      · simp at hacq
        rw [← hacq.1]
        simp

/-- The world in which `verifyAndInstall` calls the installer: the progress
lines only add to what is printed. -/
theorem progress_world {ρ : Type} (showProgress : Bool) (c : Prop) [Decidable c]
    (s t : String) (w : World ρ) :
    ∃ out, (if showProgress = true then (if c then w.print s else w).print t
        else (if c then w.print s else w)) = { w with stdout := out } := by
  by_cases hc : c <;> cases showProgress <;> simp only [hc, World.print, ↓reduceIte,
    Bool.false_eq_true]
  all_goals exact ⟨_, rfl⟩

/-- C1 (amended): for a local path that passes the integrity stage, `Install`
runs `InstallExt4Vhdx` on that path when the lower-cased path ends with
`ext4.vhdx` or `ext4.vhdx.gz` (no dot is required in front), and `InstallTar`
on that path otherwise, in the world left by the integrity stage (up to the
progress lines printed in between); `foo.ext4.vhdx` and `FOO.EXT4.VHDX.GZ`
end that way and `bar.rootfs.tar.zst` does not. -/
theorem Install_strategy_by_suffix {ρ : Type} (env : Env ρ)
    (name rootPath sha256Sum : String) (showProgress : Bool) (w w1 : World ρ) (a : Artifact)
    (hlocal : (HasPrefix (ToLower rootPath) "http://"
      || HasPrefix (ToLower rootPath) "https://") = false)
    (hacq : acquire env rootPath sha256Sum showProgress w = (.ok a, w1))
    (hsum : ¬ (sha256Sum ≠ "" ∧ a.sha256Actual ≠ "" ∧ sha256Sum ≠ a.sha256Actual)) :
    (((∃ t : String, ToLower rootPath = t ++ "ext4.vhdx") ∨
        (∃ t : String, ToLower rootPath = t ++ "ext4.vhdx.gz")) →
      ∃ out, Install env name rootPath sha256Sum showProgress w
        = InstallExt4Vhdx env name rootPath { w1 with stdout := out }) ∧
    (¬ ((∃ t : String, ToLower rootPath = t ++ "ext4.vhdx") ∨
        (∃ t : String, ToLower rootPath = t ++ "ext4.vhdx.gz")) →
      ∃ out, Install env name rootPath sha256Sum showProgress w
        = InstallTar env name rootPath { w1 with stdout := out }) ∧
    (∃ t : String, ToLower "foo.ext4.vhdx" = t ++ "ext4.vhdx") ∧
    (∃ t : String, ToLower "FOO.EXT4.VHDX.GZ" = t ++ "ext4.vhdx.gz") ∧
    ¬ ((∃ t : String, ToLower "bar.rootfs.tar.zst" = t ++ "ext4.vhdx") ∨
        (∃ t : String, ToLower "bar.rootfs.tar.zst" = t ++ "ext4.vhdx.gz")) := by
  obtain ⟨hpath, hlower, hdefer⟩ := acquire_local env rootPath sha256Sum showProgress w w1 a
    hlocal hacq
  simp only [← HasSuffix_iff]
  refine ⟨?_, ?_, by decide, by decide, by decide⟩
  · intro hdisk
    have hcond : (HasSuffix a.rootPathLower "ext4.vhdx"
        || HasSuffix a.rootPathLower "ext4.vhdx.gz") = true := by
      rw [hlower]
      simpa using hdisk
    obtain ⟨out, hout⟩ := progress_world showProgress (showProgress = true ∧ a.sha256Actual ≠ "")
      ("Checksum(SHA256): " ++ a.sha256Actual ++ "\n") "Installing...\n" w1
    refine ⟨out, ?_⟩
    simp only [Install, hacq, verifyAndInstall, hsum, hcond, hdefer, hpath, ↓reduceIte, hout]
  · intro htar
    have hcond : (HasSuffix a.rootPathLower "ext4.vhdx"
        || HasSuffix a.rootPathLower "ext4.vhdx.gz") = false := by
      rw [hlower]
      simpa using htar
    obtain ⟨out, hout⟩ := progress_world showProgress (showProgress = true ∧ a.sha256Actual ≠ "")
      ("Checksum(SHA256): " ++ a.sha256Actual ++ "\n") "Installing...\n" w1
    refine ⟨out, ?_⟩
    simp only [Install, hacq, verifyAndInstall, hsum, hcond, hdefer, hpath, ↓reduceIte, hout,
      Bool.false_eq_true]

/-- Witness of C1 (amended): the local path `foo.ext4.vhdx`, installed
without an expected digest, is handed to `InstallExt4Vhdx`. -/
theorem Install_strategy_by_suffix_witness :
    ∃ out, Install (plainEnv "C:\\wsl") "Distro" "foo.ext4.vhdx" "" false
        (World.init (oneFile "foo.ext4.vhdx" [5, 6]) [])
      = InstallExt4Vhdx (plainEnv "C:\\wsl") "Distro" "foo.ext4.vhdx"
        { World.init (oneFile "foo.ext4.vhdx" [5, 6]) [] with stdout := out } :=
  (Install_strategy_by_suffix (plainEnv "C:\\wsl") "Distro" "foo.ext4.vhdx" "" false
    (World.init (oneFile "foo.ext4.vhdx" [5, 6]) [])
    (World.init (oneFile "foo.ext4.vhdx" [5, 6]) [])
    ⟨"foo.ext4.vhdx", ToLower "foo.ext4.vhdx", "", none⟩
    (by decide) rfl (by decide)).1 (Or.inl ⟨"foo.", by decide⟩)

/-- Counterexample to C1 as stated: the local path `C:\img\ext4.vhdx` passes
the integrity stage and its lower-cased form ends neither with `.ext4.vhdx`
nor with `.ext4.vhdx.gz` (the character before `ext4` is a backslash), so the
claim sends it to the Tar strategy; `Install` runs `InstallExt4Vhdx` on it,
and what it does differs from what `InstallTar` does. -/
theorem Install_dotted_suffix_counterexample :
    (HasPrefix (ToLower "C:\\img\\ext4.vhdx") "http://"
      || HasPrefix (ToLower "C:\\img\\ext4.vhdx") "https://") = false ∧
    acquire (plainEnv "C:\\wsl") "C:\\img\\ext4.vhdx" "" false
        (World.init (oneFile "C:\\img\\ext4.vhdx" [5, 6]) [])
      = (.ok ⟨"C:\\img\\ext4.vhdx", ToLower "C:\\img\\ext4.vhdx", "", none⟩,
         World.init (oneFile "C:\\img\\ext4.vhdx" [5, 6]) []) ∧
    ¬ ((∃ t : String, ToLower "C:\\img\\ext4.vhdx" = t ++ ".ext4.vhdx") ∨
        (∃ t : String, ToLower "C:\\img\\ext4.vhdx" = t ++ ".ext4.vhdx.gz")) ∧
    Install (plainEnv "C:\\wsl") "Distro" "C:\\img\\ext4.vhdx" "" false
        (World.init (oneFile "C:\\img\\ext4.vhdx" [5, 6]) [])
      = InstallExt4Vhdx (plainEnv "C:\\wsl") "Distro" "C:\\img\\ext4.vhdx"
        (World.init (oneFile "C:\\img\\ext4.vhdx" [5, 6]) []) ∧
    (Install (plainEnv "C:\\wsl") "Distro" "C:\\img\\ext4.vhdx" "" false
        (World.init (oneFile "C:\\img\\ext4.vhdx" [5, 6]) [])).2.trace
      ≠ (InstallTar (plainEnv "C:\\wsl") "Distro" "C:\\img\\ext4.vhdx"
        (World.init (oneFile "C:\\img\\ext4.vhdx" [5, 6]) [])).2.trace := by
  refine ⟨by decide, rfl, ?_, rfl, by decide⟩
  simp only [← HasSuffix_iff]
  decide

/-! ## The integrity stage -/

theorem acquire_quiet {ρ : Type} (env : Env ρ) (rootPath sha256Sum : String)
    (showProgress : Bool) (fs : String → Option Bytes) (rt : ρ) :
    (acquire env rootPath sha256Sum showProgress (World.init fs rt)).2.rt = rt ∧
    ∀ e ∈ (acquire env rootPath sha256Sum showProgress (World.init fs rt)).2.trace,
      e.isRuntimeCall = false := by
  unfold acquire
  by_cases hurl : (HasPrefix (ToLower rootPath) "http://"
      || HasPrefix (ToLower rootPath) "https://") = true
  · by_cases hT : env.os.TempDir = ""
    · cases showProgress <;> simp [hurl, hT, World.init, World.print]
    · rcases hC : env.os.createErr
          (env.os.TempDir ++ "\\" ++ Itoa (env.os.Intn 10000) ++ env.os.Base rootPath)
        with _ | e
      · rcases hN : (env.net rootPath).err with _ | e <;>
          cases showProgress <;>
          simp [hurl, hT, hC, hN, World.init, World.print, DownloadFile, osRemove,
            Event.isRuntimeCall]
      · cases showProgress <;>
          simp [hurl, hT, hC, World.init, World.print, World.log, DownloadFile, osRemove,
            Event.isRuntimeCall]
  · by_cases hsum : sha256Sum = ""
    · cases showProgress <;> simp [hurl, hsum, World.init, World.print]
    · rcases hO : fs (env.os.file rootPath) with _ | content
      · cases showProgress <;>
          simp [hurl, hsum, hO, World.init, World.print, World.log, osOpen, Event.isRuntimeCall]
      · rcases hR : env.os.readFault rootPath with _ | ⟨n, e⟩ <;>
          cases showProgress <;>
          simp [hurl, hsum, hO, hR, World.init, World.print, World.log, osOpen, hashFile,
            readStream, Event.isRuntimeCall]

/-- C2: when an expected digest is supplied, `Install` has an actual digest in
hand and the two differ even with letter case ignored, `Install` returns the
error `checksum mismatch`, the runtime is left as it was and no runtime
primitive is called: neither installer is reached. -/
theorem Install_mismatch_stops {ρ : Type} (env : Env ρ) (name rootPath sha256Sum : String)
    (showProgress : Bool) (fs : String → Option Bytes) (rt : ρ) (a : Artifact) (w1 : World ρ)
    (hacq : acquire env rootPath sha256Sum showProgress (World.init fs rt) = (.ok a, w1))
    (hexpected : sha256Sum ≠ "") (hactual : a.sha256Actual ≠ "")
    (hdiffer : ToLower sha256Sum ≠ ToLower a.sha256Actual) :
    (Install env name rootPath sha256Sum showProgress (World.init fs rt)).1
      = some "checksum mismatch" ∧
    (Install env name rootPath sha256Sum showProgress (World.init fs rt)).2.rt = rt ∧
    ∀ e ∈ (Install env name rootPath sha256Sum showProgress (World.init fs rt)).2.trace,
      e.isRuntimeCall = false := by
  have hne : sha256Sum ≠ a.sha256Actual := fun h => hdiffer (by rw [h])
  obtain ⟨hrt, htrace⟩ := acquire_quiet env rootPath sha256Sum showProgress fs rt
  rw [hacq] at hrt htrace
  simp only at hrt htrace
  unfold Install
  rw [hacq]
  rcases hd : a.deferred with _ | tmpRootFn <;> cases showProgress <;>
    simp [verifyAndInstall, hexpected, hactual, hne, hrt, hd, osRemove, World.print] <;>
    first
      | exact htrace
      | (intro e he
         rcases he with he | he
         · exact htrace e he
         · rw [he]; rfl)

/-- Witness of C2: the empty file `a.tar` installed with the digest of another
file as the expected one. -/
theorem Install_mismatch_stops_witness :
    (Install (plainEnv "C:\\wsl") "Distro" "a.tar"
        "039058c6f2c0cb492c533b0a4d14ef77cc0f78abccced5287d84a1a2011cfb81" false
        (World.init (oneFile "a.tar" []) [])).1 = some "checksum mismatch" ∧
    (Install (plainEnv "C:\\wsl") "Distro" "a.tar"
        "039058c6f2c0cb492c533b0a4d14ef77cc0f78abccced5287d84a1a2011cfb81" false
        (World.init (oneFile "a.tar" []) [])).2.rt = [] :=
  have h := Install_mismatch_stops (plainEnv "C:\\wsl") "Distro" "a.tar"
    "039058c6f2c0cb492c533b0a4d14ef77cc0f78abccced5287d84a1a2011cfb81" false
    (oneFile "a.tar" []) []
    ⟨"a.tar", "a.tar", "e3b0c44298fc1c149afbf4c8996fb92427ae41e4649b934ca495991b7852b855", none⟩
    ⟨oneFile "a.tar" [], [], [Event.Open "a.tar" none, Event.Sum "a.tar" none], []⟩
    rfl (by decide) (by decide) (by decide)
  ⟨h.1, h.2.1⟩

theorem sha256Round_length (s : List Nat) (kw : Nat × Nat) (h : s.length = 8) :
    (sha256Round s kw).length = 8 := by
  unfold sha256Round
  split
  · rfl
  · exact h

theorem sha256Rounds_length (kws : List (Nat × Nat)) (s : List Nat) (h : s.length = 8) :
    (kws.foldl sha256Round s).length = 8 := by
  induction kws generalizing s with
  | nil => exact h
  | cons kw rest ih => exact ih _ (sha256Round_length s kw h)

theorem sha256Block_length (s block : List Nat) (h : s.length = 8) :
    (sha256Block s block).length = 8 := by
  unfold sha256Block
  simp [h, sha256Rounds_length _ s h]

theorem sha256Blocks_length (blocks : List (List Nat)) (s : List Nat) (h : s.length = 8) :
    (blocks.foldl sha256Block s).length = 8 := by
  induction blocks generalizing s with
  | nil => exact h
  | cons block rest ih => exact ih _ (sha256Block_length s block h)

/-- The hexadecimal form of a SHA-256 digest is never the empty string. -/
theorem EncodeToString_sha256Sum_ne (msg : Bytes) : EncodeToString (sha256Sum msg) ≠ "" := by
  have hlen := sha256Blocks_length (chunksOf 64 ((sha256Pad msg).length / 64) (sha256Pad msg))
    sha256Init rfl
  unfold sha256Sum EncodeToString
  rcases hX : List.foldl sha256Block sha256Init
      (chunksOf 64 ((sha256Pad msg).length / 64) (sha256Pad msg)) with _ | ⟨x, rest⟩
  · rw [hX] at hlen
    simp at hlen
  · intro h
    have hdata := congrArg String.data h
    simp [hX, bigEndian] at hdata

/-- C3 (amended): for a readable local artifact and the expected digest equal
to the true SHA-256 of its bytes in the lower-case hexadecimal form of
`hex.EncodeToString`, `Install` opens and hashes the file, does not take the
`checksum mismatch` return, and goes on to the installer chosen from the
path. -/
theorem Install_digest_match_proceeds {ρ : Type} (env : Env ρ) (name rootPath : String)
    (showProgress : Bool) (fs : String → Option Bytes) (rt : ρ) (content : Bytes)
    (hlocal : (HasPrefix (ToLower rootPath) "http://"
      || HasPrefix (ToLower rootPath) "https://") = false)
    (hfile : fs (env.os.file rootPath) = some content)
    (hread : env.os.readFault rootPath = none) :
    ∃ out, Install env name rootPath (EncodeToString (sha256Sum content)) showProgress
        (World.init fs rt)
      = if HasSuffix (ToLower rootPath) "ext4.vhdx" || HasSuffix (ToLower rootPath) "ext4.vhdx.gz"
        then InstallExt4Vhdx env name rootPath
          ⟨fs, rt, [Event.Open rootPath none, Event.Sum rootPath none], out⟩
        else InstallTar env name rootPath
          ⟨fs, rt, [Event.Open rootPath none, Event.Sum rootPath none], out⟩ := by
  have hne := EncodeToString_sha256Sum_ne content
  cases showProgress <;>
    simp [Install, acquire, verifyAndInstall, hlocal, hne, hfile, hread, osOpen, hashFile,
      readStream, World.init, World.print, World.log] <;>
    exact ⟨_, rfl⟩

/-- Witness of C3 (amended): the empty file `a.tar` with its digest in lower
case is handed to `InstallTar`. -/
theorem Install_digest_match_proceeds_witness :
    ∃ out, Install (plainEnv "C:\\wsl") "Distro" "a.tar"
        (EncodeToString (sha256Sum [])) false (World.init (oneFile "a.tar" []) [])
      = InstallTar (plainEnv "C:\\wsl") "Distro" "a.tar"
          ⟨oneFile "a.tar" [], [], [Event.Open "a.tar" none, Event.Sum "a.tar" none], out⟩ :=
  Install_digest_match_proceeds (plainEnv "C:\\wsl") "Distro" "a.tar" false
    (oneFile "a.tar" []) [] [] (by decide) rfl rfl

/-- Counterexample to C3 as stated: the empty file `a.tar` has the SHA-256
digest `e3b0c442...`; given that digest written in upper case, `Install`
returns `checksum mismatch` and calls no runtime primitive. -/
theorem Install_upper_case_digest_counterexample :
    EncodeToString (sha256Sum []) =
      "e3b0c44298fc1c149afbf4c8996fb92427ae41e4649b934ca495991b7852b855" ∧
    ToLower "E3B0C44298FC1C149AFBF4C8996FB92427AE41E4649B934CA495991B7852B855"
      = EncodeToString (sha256Sum []) ∧
    (Install (plainEnv "C:\\wsl") "Distro" "a.tar"
        "E3B0C44298FC1C149AFBF4C8996FB92427AE41E4649B934CA495991B7852B855" false
        (World.init (oneFile "a.tar" []) [])).1 = some "checksum mismatch" ∧
    (Install (plainEnv "C:\\wsl") "Distro" "a.tar"
        "E3B0C44298FC1C149AFBF4C8996FB92427AE41E4649B934CA495991B7852B855" false
        (World.init (oneFile "a.tar" []) [])).2.trace
      = [Event.Open "a.tar" none, Event.Sum "a.tar" none] := by
  refine ⟨by decide, by decide, by decide, by decide⟩

/-! ## The Tar strategy -/

/-- C7: for a local path that does not end as a disk image and no expected
digest, `Install` does nothing to the file (no `Open`, no read, the file map is
unchanged), makes exactly one call, `WslRegisterDistribution(name, rootPath)`
with the path as given, and returns what that call returns, whatever the
progress flag. -/
theorem Install_local_tar_registers_path {ρ : Type} (env : Env ρ) (name rootPath : String)
    (showProgress : Bool) (fs : String → Option Bytes) (rt : ρ)
    (hlocal : (HasPrefix (ToLower rootPath) "http://"
      || HasPrefix (ToLower rootPath) "https://") = false)
    (htar : ¬ ((∃ t : String, ToLower rootPath = t ++ "ext4.vhdx") ∨
        (∃ t : String, ToLower rootPath = t ++ "ext4.vhdx.gz"))) :
    (Install env name rootPath "" showProgress (World.init fs rt)).1
      = (env.wsl.WslRegisterDistribution name rootPath rt).1 ∧
    (Install env name rootPath "" showProgress (World.init fs rt)).2.trace
      = [Event.WslRegisterDistribution name rootPath
          (env.wsl.WslRegisterDistribution name rootPath rt).1] ∧
    (Install env name rootPath "" showProgress (World.init fs rt)).2.fs = fs ∧
    (Install env name rootPath "" showProgress (World.init fs rt)).2.rt
      = (env.wsl.WslRegisterDistribution name rootPath rt).2 := by
  simp only [← HasSuffix_iff] at htar
  have hcond : (HasSuffix (ToLower rootPath) "ext4.vhdx"
      || HasSuffix (ToLower rootPath) "ext4.vhdx.gz") = false := by
    simpa using htar
  cases showProgress <;>
    simp [Install, acquire, verifyAndInstall, InstallTar, WslRegisterDistribution, hlocal, hcond,
      World.init, World.print]

/-- Witness of C7: `bar.rootfs.tar.zst` installed under a name that is free,
then under a name that is taken. -/
theorem Install_local_tar_registers_path_witness :
    (Install (plainEnv "C:\\wsl") "Distro" "bar.rootfs.tar.zst" "" true
        (World.init (fun _ => none) [])).2.trace
      = [Event.WslRegisterDistribution "Distro" "bar.rootfs.tar.zst" none] ∧
    (Install (plainEnv "C:\\wsl") "Distro" "bar.rootfs.tar.zst" "" false
        (World.init (fun _ => none) [⟨"Distro", "C:\\old", 7, []⟩])).1
      = some "the distribution name is already registered" :=
  ⟨(Install_local_tar_registers_path (plainEnv "C:\\wsl") "Distro" "bar.rootfs.tar.zst" true
      (fun _ => none) [] (by decide) (by simp only [← HasSuffix_iff]; decide)).2.1,
   (Install_local_tar_registers_path (plainEnv "C:\\wsl") "Distro" "bar.rootfs.tar.zst" false
      (fun _ => none) [⟨"Distro", "C:\\old", 7, []⟩] (by decide)
      (by simp only [← HasSuffix_iff]; decide)).1⟩

/-! ## The Disk-Image strategy -/

theorem allSplits_of_forall {α : Type} (P : List α → α → List α → Prop) (l acc : List α)
    (h : AllSplits P acc l) :
    ∀ before e after, l = before ++ e :: after → P (acc ++ before) e after := by
  induction l generalizing acc with
  | nil =>
    intro before e after hl
    simp at hl
  | cons x rest ih =>
    intro before e after hl
    obtain ⟨hx, hrest⟩ := h
    rcases before with _ | ⟨b, before⟩
    · simp only [List.nil_append, List.cons.injEq] at hl
      obtain ⟨rfl, rfl⟩ := hl
      simpa using hx
    · simp only [List.cons_append, List.cons.injEq] at hl
      obtain ⟨rfl, hl⟩ := hl
      have := ih (acc ++ [x]) hrest before e after hl
      simpa using this

theorem tmptar_ne_image (tmp base : String) :
    tmp ++ "\\em-vhdx-temp.tar" ≠ base ++ "\\ext4.vhdx" := by
  intro h
  have hdata := congrArg (fun s : String => s.data.getLast?) h
  simp [List.getLast?_append] at hdata

theorem tmptar_beq_image (tmp base : String) :
    (tmp ++ "\\em-vhdx-temp.tar" == base ++ "\\ext4.vhdx") = false := by
  simpa using tmptar_ne_image tmp base

/-- What does hold of the order of the calls of `InstallExt4Vhdx`: its runtime
calls form a prefix of registration of the placeholder archive, profile read,
unregistration, profile write, in that order; the image file is written only
after unregistration, with nothing but the profile write after it; a call
other than the profile read that returns an error is the last thing the
function does, and its error is returned; a profile read that gives an empty
base path is the last thing the function does, and what is returned is the
error that came with it, `nil` included.  A profile read that returns an
error together with a base path is not covered: the function goes on. -/
theorem InstallExt4Vhdx_protocol {ρ : Type} (env : Env ρ) (name rootPath : String)
    (fs : String → Option Bytes) (rt : ρ) :
    ((InstallExt4Vhdx env name rootPath (World.init fs rt)).2.trace.filter Event.isRuntimeCall
      <+: protocol env name rt) ∧
    ∀ before e after,
      (InstallExt4Vhdx env name rootPath (World.init fs rt)).2.trace = before ++ e :: after →
      (e.writes (imagePath env name rt) = true →
        before.filter Event.isRuntimeCall = (protocol env name rt).take 3 ∧
        after.filter Event.isRuntimeCall <+: (protocol env name rt).drop 3) ∧
      (∀ err, e.err = some err → (∀ prof gerr, e ≠ Event.GetProfileFromName name prof gerr) →
        after = [] ∧ (InstallExt4Vhdx env name rootPath (World.init fs rt)).1 = some err) ∧
      (∀ prof gerr, e = Event.GetProfileFromName name prof gerr → prof.BasePath = "" →
        after = [] ∧ (InstallExt4Vhdx env name rootPath (World.init fs rt)).1 = gerr) := by
  generalize hr : InstallExt4Vhdx env name rootPath (World.init fs rt) = r
  suffices key : (r.2.trace.filter Event.isRuntimeCall <+: protocol env name rt) ∧
      AllSplits (fun before e after =>
        (e.writes (imagePath env name rt) = true →
          before.filter Event.isRuntimeCall = (protocol env name rt).take 3 ∧
          after.filter Event.isRuntimeCall <+: (protocol env name rt).drop 3) ∧
        (∀ err, e.err = some err → (∀ prof gerr, e ≠ Event.GetProfileFromName name prof gerr) →
          after = [] ∧ r.1 = some err) ∧
        (∀ prof gerr, e = Event.GetProfileFromName name prof gerr → prof.BasePath = "" →
          after = [] ∧ r.1 = gerr)) [] r.2.trace from
    ⟨key.1, fun before e after h => by
      simpa using allSplits_of_forall _ _ [] key.2 before e after h⟩
  unfold InstallExt4Vhdx at hr
  unfold imagePath protocol patchedProfile placeholderProfile
  have hne0 : ¬ env.os.TempDir ++ "\\em-vhdx-temp.tar" = "\\ext4.vhdx" := by
    simpa using tmptar_ne_image env.os.TempDir ""
  by_cases hT : env.os.TempDir = ""
  · simp [hT, World.init] at hr
    subst hr
    simp [AllSplits]
  rcases hC : env.os.createErr (env.os.TempDir ++ "\\em-vhdx-temp.tar") with _ | e
  swap
  · simp [hT, hC, World.init, World.log, osCreate] at hr
    subst hr
    simp [AllSplits, Event.isRuntimeCall, Event.err, Event.writes, tmptar_beq_image]
  rcases hR : env.wsl.WslRegisterDistribution name (env.os.TempDir ++ "\\em-vhdx-temp.tar") rt
    with ⟨_ | e, rt1⟩
  swap
  · simp [hT, hC, hR, World.init, World.log, osCreate, WslRegisterDistribution] at hr
    subst hr
    simp [AllSplits, Event.isRuntimeCall, Event.err, Event.writes, tmptar_beq_image, hR]
  rcases hG : env.wsl.GetProfileFromName name rt1 with ⟨prof, gerr⟩
  by_cases hB : prof.BasePath = ""
  · simp [hT, hC, hR, hG, hB, World.init, World.log, osCreate, WslRegisterDistribution, osRemove,
      GetProfileFromName] at hr
    subst hr
    simp [AllSplits, Event.isRuntimeCall, Event.err, Event.writes, tmptar_beq_image, hne0,
      hB, hR, hG]
  rcases hU : env.wsl.WslUnregisterDistribution name rt1 with ⟨_ | e, rt2⟩
  swap
  · simp [hT, hC, hR, hG, hB, hU, World.init, World.log, osCreate, WslRegisterDistribution,
      osRemove, GetProfileFromName, WslUnregisterDistribution] at hr
    subst hr
    simp [AllSplits, Event.isRuntimeCall, Event.err, Event.writes, tmptar_beq_image, hne0, hB,
      hR, hG, hU]
  rcases hO : setFile (setFile fs (env.os.file (env.os.TempDir ++ "\\em-vhdx-temp.tar"))
      (some [])) (env.os.file (env.os.TempDir ++ "\\em-vhdx-temp.tar")) none
      (env.os.file rootPath) with _ | content
  · simp [hT, hC, hR, hG, hB, hU, hO, World.init, World.log, osCreate, WslRegisterDistribution,
      osRemove, GetProfileFromName, WslUnregisterDistribution, osOpen] at hr
    subst hr
    simp [AllSplits, Event.isRuntimeCall, Event.err, Event.writes, tmptar_beq_image, hne0, hB,
      hR, hG, hU]
  rcases hD : env.os.createErr (prof.BasePath ++ "\\ext4.vhdx") with _ | e
  swap
  · simp [hT, hC, hR, hG, hB, hU, hO, hD, World.init, World.log, osCreate,
      WslRegisterDistribution, osRemove, GetProfileFromName, WslUnregisterDistribution,
      osOpen] at hr
    subst hr
    simp [AllSplits, Event.isRuntimeCall, Event.err, Event.writes, tmptar_beq_image, hne0, hB,
      hR, hG, hU]
  simp only [hT, hC, hR, hG, hB, hU, hO, hD, World.init, World.log, osCreate,
      WslRegisterDistribution, osRemove, GetProfileFromName, WslUnregisterDistribution, osOpen,
      ↓reduceIte, List.nil_append, List.cons_append, ioCopy] at hr
  generalize readStream env.os _ rootPath = src at hr
  by_cases hgz : HasSuffix (ToLower rootPath) ".gz" = true
  · rcases hH : env.gzip.NewReader src.1 with _ | e
    swap
    · simp [hgz, hH] at hr
      subst hr
      simp [AllSplits, Event.isRuntimeCall, Event.err, Event.writes, tmptar_beq_image, hne0, hB,
        hR, hG, hU]
    generalize copyOutcome env.os _ ((env.gzip.inflate src.1).1, _) = cp at hr
    rcases cp with ⟨written, _ | e⟩
    · simp [hgz, hH, WriteProfile] at hr
      subst hr
      rcases hW : env.wsl.WriteProfile
        { prof with Flags := prof.Flags ||| env.wsl.FlagEnableWsl2 } rt2 with ⟨_ | e, rt3⟩ <;>
        simp [AllSplits, Event.isRuntimeCall, Event.err, Event.writes, tmptar_beq_image, hne0, hB,
          hR, hG, hU, hW]
    · simp [hgz, hH] at hr
      subst hr
      simp [AllSplits, Event.isRuntimeCall, Event.err, Event.writes, tmptar_beq_image, hne0, hB,
        hR, hG, hU]
  · generalize copyOutcome env.os _ src = cp at hr
    rcases cp with ⟨written, _ | e⟩
    · simp [hgz, WriteProfile] at hr
      subst hr
      rcases hW : env.wsl.WriteProfile
        { prof with Flags := prof.Flags ||| env.wsl.FlagEnableWsl2 } rt2 with ⟨_ | e, rt3⟩ <;>
        simp [AllSplits, Event.isRuntimeCall, Event.err, Event.writes, tmptar_beq_image, hne0, hB,
          hR, hG, hU, hW]
    · simp [hgz] at hr
      subst hr
      simp [AllSplits, Event.isRuntimeCall, Event.err, Event.writes, tmptar_beq_image, hne0, hB,
        hR, hG, hU]

/-- C10, the code at the failing input: the runtime registers the placeholder
and its profile read returns the profile, base path `C:\wsl`, together with
the error `boom`.  `InstallExt4Vhdx` does not return: it unregisters, copies
the image, writes the profile, and returns `nil`. -/
theorem InstallExt4Vhdx_ignores_profile_read_error :
    (registryReadError "C:\\wsl" "boom").GetProfileFromName "Distro"
        ((registryReadError "C:\\wsl" "boom").WslRegisterDistribution "Distro"
          "C:\\Temp\\em-vhdx-temp.tar" []).2
      = (⟨"Distro", "C:\\wsl", 7, []⟩, some "boom") ∧
    (InstallExt4Vhdx (readErrorEnv "C:\\wsl" "boom") "Distro" "C:\\img\\a.ext4.vhdx"
        (World.init (oneFile "C:\\img\\a.ext4.vhdx" [5, 6]) [])).1 = none ∧
    (InstallExt4Vhdx (readErrorEnv "C:\\wsl" "boom") "Distro" "C:\\img\\a.ext4.vhdx"
        (World.init (oneFile "C:\\img\\a.ext4.vhdx" [5, 6]) [])).2.trace
      = [Event.Create "C:\\Temp\\em-vhdx-temp.tar" none,
         Event.WslRegisterDistribution "Distro" "C:\\Temp\\em-vhdx-temp.tar" none,
         Event.Remove "C:\\Temp\\em-vhdx-temp.tar",
         Event.GetProfileFromName "Distro" ⟨"Distro", "C:\\wsl", 7, []⟩ (some "boom"),
         Event.WslUnregisterDistribution "Distro" none,
         Event.Open "C:\\img\\a.ext4.vhdx" none,
         Event.Create "C:\\wsl\\ext4.vhdx" none,
         Event.Copy "C:\\wsl\\ext4.vhdx" [5, 6] none,
         Event.WriteProfile ⟨"Distro", "C:\\wsl", 15, []⟩ none] := by
  decide

/-- C6: in a run of `InstallExt4Vhdx` whose copy into the image file has
succeeded, registration of the placeholder returned `nil`, the profile read
back has a non-empty base path and unregistration returned `nil`; the runtime
calls made are exactly registration, profile read, unregistration and profile
write, in that order; the write is the last thing done, the profile passed to
it is the one read back with `FlagEnableWsl2` or-ed into `Flags` (that bit
set, every other bit and every other field as read), and its result is what
the function returns. -/
theorem InstallExt4Vhdx_patches_profile {ρ : Type} (env : Env ρ) (name rootPath : String)
    (fs : String → Option Bytes) (rt : ρ) (written : Bytes)
    (hcopy : Event.Copy (imagePath env name rt) written none
      ∈ (InstallExt4Vhdx env name rootPath (World.init fs rt)).2.trace) :
    (env.wsl.WslRegisterDistribution name (env.os.TempDir ++ "\\em-vhdx-temp.tar") rt).1 = none ∧
    (placeholderProfile env name rt).BasePath ≠ "" ∧
    (env.wsl.WslUnregisterDistribution name
      (env.wsl.WslRegisterDistribution name (env.os.TempDir ++ "\\em-vhdx-temp.tar") rt).2).1
      = none ∧
    (InstallExt4Vhdx env name rootPath (World.init fs rt)).2.trace.filter Event.isRuntimeCall
      = protocol env name rt ∧
    (InstallExt4Vhdx env name rootPath (World.init fs rt)).2.trace.getLast?
      = some (Event.WriteProfile (patchedProfile env name rt)
          (env.wsl.WriteProfile (patchedProfile env name rt)
            (env.wsl.WslUnregisterDistribution name
              (env.wsl.WslRegisterDistribution name
                (env.os.TempDir ++ "\\em-vhdx-temp.tar") rt).2).2).1) ∧
    (InstallExt4Vhdx env name rootPath (World.init fs rt)).1
      = (env.wsl.WriteProfile (patchedProfile env name rt)
          (env.wsl.WslUnregisterDistribution name
            (env.wsl.WslRegisterDistribution name
              (env.os.TempDir ++ "\\em-vhdx-temp.tar") rt).2).2).1 ∧
    (∀ i, (patchedProfile env name rt).Flags.testBit i
      = ((placeholderProfile env name rt).Flags.testBit i || env.wsl.FlagEnableWsl2.testBit i)) ∧
    (patchedProfile env name rt).DistributionName
      = (placeholderProfile env name rt).DistributionName ∧
    (patchedProfile env name rt).BasePath = (placeholderProfile env name rt).BasePath ∧
    (patchedProfile env name rt).Rest = (placeholderProfile env name rt).Rest := by
  generalize hr : InstallExt4Vhdx env name rootPath (World.init fs rt) = r at hcopy ⊢
  unfold InstallExt4Vhdx at hr
  unfold imagePath at hcopy
  unfold protocol patchedProfile placeholderProfile
  unfold placeholderProfile at hcopy
  by_cases hT : env.os.TempDir = ""
  · simp [hT, World.init] at hr
    subst hr
    simp at hcopy
  rcases hC : env.os.createErr (env.os.TempDir ++ "\\em-vhdx-temp.tar") with _ | e
  swap
  · simp [hT, hC, World.init, World.log, osCreate] at hr
    subst hr
    simp at hcopy
  rcases hR : env.wsl.WslRegisterDistribution name (env.os.TempDir ++ "\\em-vhdx-temp.tar") rt
    with ⟨_ | e, rt1⟩
  swap
  · simp [hT, hC, hR, World.init, World.log, osCreate, WslRegisterDistribution] at hr
    subst hr
    simp at hcopy
  rcases hG : env.wsl.GetProfileFromName name rt1 with ⟨prof, gerr⟩
  by_cases hB : prof.BasePath = ""
  · simp [hT, hC, hR, hG, hB, World.init, World.log, osCreate, WslRegisterDistribution, osRemove,
      GetProfileFromName] at hr
    subst hr
    simp at hcopy
  rcases hU : env.wsl.WslUnregisterDistribution name rt1 with ⟨_ | e, rt2⟩
  swap
  · simp [hT, hC, hR, hG, hB, hU, World.init, World.log, osCreate, WslRegisterDistribution,
      osRemove, GetProfileFromName, WslUnregisterDistribution] at hr
    subst hr
    simp at hcopy
  rcases hO : setFile (setFile fs (env.os.file (env.os.TempDir ++ "\\em-vhdx-temp.tar"))
      (some [])) (env.os.file (env.os.TempDir ++ "\\em-vhdx-temp.tar")) none
      (env.os.file rootPath) with _ | content
  · simp [hT, hC, hR, hG, hB, hU, hO, World.init, World.log, osCreate, WslRegisterDistribution,
      osRemove, GetProfileFromName, WslUnregisterDistribution, osOpen] at hr
    subst hr
    simp at hcopy
  rcases hD : env.os.createErr (prof.BasePath ++ "\\ext4.vhdx") with _ | e
  swap
  · simp [hT, hC, hR, hG, hB, hU, hO, hD, World.init, World.log, osCreate,
      WslRegisterDistribution, osRemove, GetProfileFromName, WslUnregisterDistribution,
      osOpen] at hr
    subst hr
    simp at hcopy
  simp only [hT, hC, hR, hG, hB, hU, hO, hD, World.init, World.log, osCreate,
      WslRegisterDistribution, osRemove, GetProfileFromName, WslUnregisterDistribution, osOpen,
      ↓reduceIte, List.nil_append, List.cons_append, ioCopy] at hr
  generalize readStream env.os _ rootPath = src at hr
  by_cases hgz : HasSuffix (ToLower rootPath) ".gz" = true
  · rcases hH : env.gzip.NewReader src.1 with _ | e
    swap
    · simp [hgz, hH] at hr
      subst hr
      simp at hcopy
    generalize copyOutcome env.os _ ((env.gzip.inflate src.1).1, _) = cp at hr
    rcases cp with ⟨written, _ | e⟩
    · simp [hgz, hH, WriteProfile] at hr
      subst hr
      simp [Event.isRuntimeCall, hR, hG, hU, hB, Nat.testBit_or]
    · simp [hgz, hH] at hr
      subst hr
      simp at hcopy
  · generalize copyOutcome env.os _ src = cp at hr
    rcases cp with ⟨written, _ | e⟩
    · simp [hgz, WriteProfile] at hr
      subst hr
      simp [Event.isRuntimeCall, hR, hG, hU, hB, Nat.testBit_or]
    · simp [hgz] at hr
      subst hr
      simp at hcopy

/-- Witness of C6: a complete run on `C:\img\a.ext4.vhdx` against the registry
that stores instances under `C:\wsl`: the copy into `C:\wsl\ext4.vhdx`
succeeds, and the run ends with the write of the profile whose flags went
from 7 to 15. -/
theorem InstallExt4Vhdx_patches_profile_witness :
    (InstallExt4Vhdx (plainEnv "C:\\wsl") "Distro" "C:\\img\\a.ext4.vhdx"
        (World.init (oneFile "C:\\img\\a.ext4.vhdx" [5, 6]) [])).2.trace.getLast?
      = some (Event.WriteProfile ⟨"Distro", "C:\\wsl", 15, []⟩ none) ∧
    (InstallExt4Vhdx (plainEnv "C:\\wsl") "Distro" "C:\\img\\a.ext4.vhdx"
        (World.init (oneFile "C:\\img\\a.ext4.vhdx" [5, 6]) [])).1 = none :=
  have h := InstallExt4Vhdx_patches_profile (plainEnv "C:\\wsl") "Distro" "C:\\img\\a.ext4.vhdx"
    (oneFile "C:\\img\\a.ext4.vhdx" [5, 6]) [] [5, 6] (by decide)
  ⟨h.2.2.2.2.1, h.2.2.2.2.2.1⟩

theorem setFile_removed (fs : String → Option Bytes) (tmp file : String)
    (created : Option Bytes) (content : Bytes)
    (h : setFile (setFile fs tmp created) tmp none file = some content) :
    file ≠ tmp ∧ fs file = some content := by
  unfold setFile at h
  by_cases hp : file = tmp
  · simp [hp] at h
  · simp only [hp, ↓reduceIte] at h
    exact ⟨hp, h⟩

theorem copyOutcome_complete (os : OS) (dest : String) (stream : Bytes × GoError)
    (written : Bytes) (h : copyOutcome os dest stream = (written, none)) :
    stream = (written, none) := by
  unfold copyOutcome at h
  split at h
  · split at h
    · simp at h
    · exact h
  · exact h

theorem readStream_complete (os : OS) (fs : String → Option Bytes) (path : String)
    (src : Bytes × GoError) (h : readStream os fs path = src) (hnone : src.2 = none) :
    src.1 = (fs (os.file path)).getD [] := by
  unfold readStream at h
  split at h
  · rw [← h] at hnone
    simp at hnone
  · rw [← h]

theorem readStream_truncated (os : OS) (fs : String → Option Bytes) (path : String)
    (h : fs (os.file path) = some []) : (readStream os fs path).1 = [] := by
  unfold readStream
  split <;> simp [h]

/-- C9 (amended): in a run of `InstallExt4Vhdx` that returns `nil` with a
non-empty base path `B` assigned by the runtime, the source file exists and
the file `B\ext4.vhdx` is written.  When the lower-cased path ends with `.gz`
and the decoder rejects an empty stream, the decoder reaches the end of the
source without error and the image file holds the decompressed bytes of the
source as it was before the call.  Otherwise the image file holds the bytes
of the source as they were before the call, provided the path does not name
the image file itself, under whatever spelling. -/
theorem InstallExt4Vhdx_image_bytes {ρ : Type} (env : Env ρ) (name rootPath : String)
    (fs : String → Option Bytes) (rt : ρ)
    (hok : (InstallExt4Vhdx env name rootPath (World.init fs rt)).1 = none)
    (hbase : (placeholderProfile env name rt).BasePath ≠ "") :
    ∃ content, fs (env.os.file rootPath) = some content ∧
      (HasSuffix (ToLower rootPath) ".gz" = true → env.gzip.NewReader [] ≠ none →
        (env.gzip.inflate content).2 = none ∧
        (InstallExt4Vhdx env name rootPath (World.init fs rt)).2.fs
            (env.os.file (imagePath env name rt))
          = some (env.gzip.inflate content).1) ∧
      (HasSuffix (ToLower rootPath) ".gz" = false →
        env.os.file rootPath ≠ env.os.file (imagePath env name rt) →
        (InstallExt4Vhdx env name rootPath (World.init fs rt)).2.fs
            (env.os.file (imagePath env name rt))
          = some content) := by
  generalize hr : InstallExt4Vhdx env name rootPath (World.init fs rt) = r at hok ⊢
  unfold InstallExt4Vhdx at hr
  unfold imagePath
  unfold placeholderProfile at hbase ⊢
  by_cases hT : env.os.TempDir = ""
  · simp [hT, World.init] at hr
    subst hr
    simp at hok
  rcases hC : env.os.createErr (env.os.TempDir ++ "\\em-vhdx-temp.tar") with _ | e
  swap
  · simp [hT, hC, World.init, World.log, osCreate] at hr
    subst hr
    simp at hok
  rcases hR : env.wsl.WslRegisterDistribution name (env.os.TempDir ++ "\\em-vhdx-temp.tar") rt
    with ⟨_ | e, rt1⟩
  swap
  · simp [hT, hC, hR, World.init, World.log, osCreate, WslRegisterDistribution] at hr
    subst hr
    simp at hok
  rcases hG : env.wsl.GetProfileFromName name rt1 with ⟨prof, gerr⟩
  by_cases hB : prof.BasePath = ""
  · simp [hT, hC, hR, hG, hB, World.init, World.log, osCreate, WslRegisterDistribution, osRemove,
      GetProfileFromName] at hr
    subst hr
    simp [hR, hG, hB] at hbase
  rcases hU : env.wsl.WslUnregisterDistribution name rt1 with ⟨_ | e, rt2⟩
  swap
  · simp [hT, hC, hR, hG, hB, hU, World.init, World.log, osCreate, WslRegisterDistribution,
      osRemove, GetProfileFromName, WslUnregisterDistribution] at hr
    subst hr
    simp at hok
  rcases hO : setFile (setFile fs (env.os.file (env.os.TempDir ++ "\\em-vhdx-temp.tar"))
      (some [])) (env.os.file (env.os.TempDir ++ "\\em-vhdx-temp.tar")) none
      (env.os.file rootPath) with _ | content
  · simp [hT, hC, hR, hG, hB, hU, hO, World.init, World.log, osCreate, WslRegisterDistribution,
      osRemove, GetProfileFromName, WslUnregisterDistribution, osOpen] at hr
    subst hr
    simp at hok
  rcases hD : env.os.createErr (prof.BasePath ++ "\\ext4.vhdx") with _ | e
  swap
  · simp [hT, hC, hR, hG, hB, hU, hO, hD, World.init, World.log, osCreate,
      WslRegisterDistribution, osRemove, GetProfileFromName, WslUnregisterDistribution,
      osOpen] at hr
    subst hr
    simp at hok
  simp only [hT, hC, hR, hG, hB, hU, hO, hD, World.init, World.log, osCreate,
      WslRegisterDistribution, osRemove, GetProfileFromName, WslUnregisterDistribution, osOpen,
      ↓reduceIte, List.nil_append, List.cons_append, ioCopy] at hr
  generalize hsrc : readStream env.os _ rootPath = src at hr
  by_cases hgz : HasSuffix (ToLower rootPath) ".gz" = true
  · rcases hH : env.gzip.NewReader src.1 with _ | e
    swap
    · simp [hgz, hH] at hr
      subst hr
      simp at hok
    generalize hcp : copyOutcome env.os _ ((env.gzip.inflate src.1).1, _) = cp at hr
    rcases cp with ⟨written, _ | e⟩
    · simp [hgz, hH, WriteProfile] at hr
      subst hr
      obtain ⟨hne, hfs⟩ := setFile_removed fs _ _ _ content hO
      have hstream := copyOutcome_complete _ _ _ _ hcp
      simp only [Prod.mk.injEq] at hstream
      obtain ⟨hout, herr⟩ := hstream
      have hierr : (env.gzip.inflate src.1).2 = none := by
        rcases hi : (env.gzip.inflate src.1).2 with _ | e
        · rfl
        · simp [hi, Option.orElse] at herr
      have hserr : src.2 = none := by
        simpa [hierr, Option.orElse] using herr
      refine ⟨content, hfs, ?_, ?_⟩
      · intro _ hempty
        have hdest : env.os.file rootPath ≠ env.os.file (prof.BasePath ++ "\\ext4.vhdx") := by
          intro h
          have htrunc := readStream_truncated env.os
            (setFile (setFile (setFile fs (env.os.file (env.os.TempDir ++ "\\em-vhdx-temp.tar"))
              (some [])) (env.os.file (env.os.TempDir ++ "\\em-vhdx-temp.tar")) none)
              (env.os.file (prof.BasePath ++ "\\ext4.vhdx")) (some [])) rootPath
            (by simp [setFile, h])
          rw [hsrc] at htrunc
          rw [htrunc] at hH
          exact hempty hH
        have hsrc1 := readStream_complete _ _ _ _ hsrc hserr
        simp only [setFile, hdest, ↓reduceIte] at hsrc1
        have hfs1 := hO
        simp only [setFile] at hfs1
        rw [hfs1] at hsrc1
        simp only [Option.getD_some] at hsrc1
        subst hsrc1
        exact ⟨hierr, by simp [hR, hG, setFile, hout]⟩
      · intro h
        simp [hgz] at h
    · simp [hgz, hH] at hr
      subst hr
      simp at hok
  · generalize hcp : copyOutcome env.os _ src = cp at hr
    rcases cp with ⟨written, _ | e⟩
    · simp [hgz, WriteProfile] at hr
      subst hr
      obtain ⟨hne, hfs⟩ := setFile_removed fs _ _ _ content hO
      have hstream := copyOutcome_complete _ _ _ _ hcp
      have hserr : src.2 = none := by rw [hstream]
      have hsrc1 := readStream_complete _ _ _ _ hsrc hserr
      have hw : src.1 = written := by rw [hstream]
      refine ⟨content, hfs, ?_, ?_⟩
      · intro h
        exact absurd h hgz
      · intro _ hdest
        simp only [hR, hG] at hdest
        simp only [setFile, hdest, ↓reduceIte] at hsrc1
        have hfs1 := hO
        simp only [setFile] at hfs1
        rw [hfs1] at hsrc1
        simp only [Option.getD_some] at hsrc1
        simp [hR, hG, setFile, ← hw, hsrc1]
    · simp [hgz] at hr
      subst hr
      simp at hok


/-- Witness of C9 (amended): the image `5, 6` compressed by the toy codec is
installed from `C:\img\a.ext4.vhdx.gz`, and the image `5, 6` as it is from
`C:\img\a.ext4.vhdx`; `C:\wsl\ext4.vhdx` then holds `5, 6`. -/
theorem InstallExt4Vhdx_image_bytes_witness :
    (InstallExt4Vhdx (plainEnv "C:\\wsl") "Distro" "C:\\img\\a.ext4.vhdx.gz"
        (World.init (oneFile "C:\\img\\a.ext4.vhdx.gz" [31, 139, 5, 6]) [])).2.fs
      "C:\\wsl\\ext4.vhdx" = some [5, 6] ∧
    (InstallExt4Vhdx (plainEnv "C:\\wsl") "Distro" "C:\\img\\a.ext4.vhdx"
        (World.init (oneFile "C:\\img\\a.ext4.vhdx" [5, 6]) [])).2.fs
      "C:\\wsl\\ext4.vhdx" = some [5, 6] := by
  constructor
  · obtain ⟨content, hfs, hgz, -⟩ := InstallExt4Vhdx_image_bytes (plainEnv "C:\\wsl") "Distro"
      "C:\\img\\a.ext4.vhdx.gz" (oneFile "C:\\img\\a.ext4.vhdx.gz" [31, 139, 5, 6]) []
      (by decide) (by decide)
    have hcontent : content = [31, 139, 5, 6] := by
      have h : some [31, 139, 5, 6] = some content := hfs
      exact (Option.some.inj h).symm
    subst hcontent
    exact (hgz (by decide) (by decide)).2
  · obtain ⟨content, hfs, -, hraw⟩ := InstallExt4Vhdx_image_bytes (plainEnv "C:\\wsl") "Distro"
      "C:\\img\\a.ext4.vhdx" (oneFile "C:\\img\\a.ext4.vhdx" [5, 6]) []
      (by decide) (by decide)
    have hcontent : content = [5, 6] := by
      have h : some [5, 6] = some content := hfs
      exact (Option.some.inj h).symm
    subst hcontent
    exact hraw (by decide) (by decide)

/-- Counterexample to C9 as stated: installing from `C:\wsl\ext4.vhdx`, a file
holding `5, 6`, when the runtime assigns the base path `C:\wsl`.  The run
returns `nil`, the path does not end with `.gz`, and `C:\wsl\ext4.vhdx` ends
up empty: the destination is created, hence truncated, before the source is
read. -/
theorem InstallExt4Vhdx_image_bytes_counterexample :
    (InstallExt4Vhdx (plainEnv "C:\\wsl") "Distro" "C:\\wsl\\ext4.vhdx"
        (World.init (oneFile "C:\\wsl\\ext4.vhdx" [5, 6]) [])).1 = none ∧
    imagePath (plainEnv "C:\\wsl") "Distro" [] = "C:\\wsl\\ext4.vhdx" ∧
    HasSuffix (ToLower "C:\\wsl\\ext4.vhdx") ".gz" = false ∧
    oneFile "C:\\wsl\\ext4.vhdx" [5, 6] "C:\\wsl\\ext4.vhdx" = some [5, 6] ∧
    (InstallExt4Vhdx (plainEnv "C:\\wsl") "Distro" "C:\\wsl\\ext4.vhdx"
        (World.init (oneFile "C:\\wsl\\ext4.vhdx" [5, 6]) [])).2.fs "C:\\wsl\\ext4.vhdx"
      = some [] ∧
    (InstallExt4Vhdx (plainEnv "C:\\wsl") "Distro" "C:\\wsl\\ext4.vhdx"
        (World.init (oneFile "C:\\wsl\\ext4.vhdx" [5, 6]) [])).2.trace
      = [Event.Create "C:\\Temp\\em-vhdx-temp.tar" none,
         Event.WslRegisterDistribution "Distro" "C:\\Temp\\em-vhdx-temp.tar" none,
         Event.Remove "C:\\Temp\\em-vhdx-temp.tar",
         Event.GetProfileFromName "Distro" ⟨"Distro", "C:\\wsl", 7, []⟩ none,
         Event.WslUnregisterDistribution "Distro" none,
         Event.Open "C:\\wsl\\ext4.vhdx" none,
         Event.Create "C:\\wsl\\ext4.vhdx" none,
         Event.Copy "C:\\wsl\\ext4.vhdx" [] none,
         Event.WriteProfile ⟨"Distro", "C:\\wsl", 15, []⟩ none] := by
  decide

/-- The same under another spelling: where letter case does not distinguish
files, installing from `c:\wsl\ext4.vhdx` when the runtime assigns the base
path `C:\wsl` returns `nil` and leaves the file, which held `5, 6`, empty. -/
theorem InstallExt4Vhdx_truncates_source_under_other_spelling :
    "c:\\wsl\\ext4.vhdx" ≠ imagePath (foldingEnv "C:\\wsl") "Distro" [] ∧
    foldingOS.file "c:\\wsl\\ext4.vhdx"
      = foldingOS.file (imagePath (foldingEnv "C:\\wsl") "Distro" []) ∧
    (InstallExt4Vhdx (foldingEnv "C:\\wsl") "Distro" "c:\\wsl\\ext4.vhdx"
        (World.init (oneFile (foldingOS.file "c:\\wsl\\ext4.vhdx") [5, 6]) [])).1 = none ∧
    (InstallExt4Vhdx (foldingEnv "C:\\wsl") "Distro" "c:\\wsl\\ext4.vhdx"
        (World.init (oneFile (foldingOS.file "c:\\wsl\\ext4.vhdx") [5, 6]) [])).2.fs
      (foldingOS.file "C:\\wsl\\ext4.vhdx") = some [] := by
  decide

/-- C4, the code at the failing input: the runtime registers the placeholder
and gives back a profile whose base path is empty, with a `nil` error.
`InstallExt4Vhdx` returns `nil`; it has stopped after the profile read, no
image is written, and the placeholder is still registered. -/
theorem InstallExt4Vhdx_empty_base_path_returns_nil :
    (registry "").GetProfileFromName "Distro"
        ((registry "").WslRegisterDistribution "Distro" "C:\\Temp\\em-vhdx-temp.tar" []).2
      = (⟨"Distro", "", 7, []⟩, none) ∧
    (InstallExt4Vhdx (plainEnv "") "Distro" "C:\\img\\a.ext4.vhdx"
        (World.init (oneFile "C:\\img\\a.ext4.vhdx" [5, 6]) [])).1 = none ∧
    (InstallExt4Vhdx (plainEnv "") "Distro" "C:\\img\\a.ext4.vhdx"
        (World.init (oneFile "C:\\img\\a.ext4.vhdx" [5, 6]) [])).2.trace
      = [Event.Create "C:\\Temp\\em-vhdx-temp.tar" none,
         Event.WslRegisterDistribution "Distro" "C:\\Temp\\em-vhdx-temp.tar" none,
         Event.Remove "C:\\Temp\\em-vhdx-temp.tar",
         Event.GetProfileFromName "Distro" ⟨"Distro", "", 7, []⟩ none] ∧
    (InstallExt4Vhdx (plainEnv "") "Distro" "C:\\img\\a.ext4.vhdx"
        (World.init (oneFile "C:\\img\\a.ext4.vhdx" [5, 6]) [])).2.rt
      = [⟨"Distro", "", 7, []⟩] ∧
    (InstallExt4Vhdx (plainEnv "") "Distro" "C:\\img\\a.ext4.vhdx"
        (World.init (oneFile "C:\\img\\a.ext4.vhdx" [5, 6]) [])).2.fs "\\ext4.vhdx" = none := by
  decide

/-- C5, the code at the failing input: the name `Distro` is already taken, so
registration of the placeholder fails.  `InstallExt4Vhdx` returns that error
from line 122, before the `os.Remove(tmptar)` of line 124: the placeholder
archive `C:\Temp\em-vhdx-temp.tar`, absent before the call, is on disk when
the function returns. -/
theorem InstallExt4Vhdx_failed_registration_leaves_tmptar :
    oneFile "C:\\img\\a.ext4.vhdx" [5, 6] "C:\\Temp\\em-vhdx-temp.tar" = none ∧
    (InstallExt4Vhdx (plainEnv "C:\\wsl") "Distro" "C:\\img\\a.ext4.vhdx"
        (World.init (oneFile "C:\\img\\a.ext4.vhdx" [5, 6]) [⟨"Distro", "C:\\old", 7, []⟩])).1
      = some "the distribution name is already registered" ∧
    (InstallExt4Vhdx (plainEnv "C:\\wsl") "Distro" "C:\\img\\a.ext4.vhdx"
        (World.init (oneFile "C:\\img\\a.ext4.vhdx" [5, 6]) [⟨"Distro", "C:\\old", 7, []⟩])).2.trace
      = [Event.Create "C:\\Temp\\em-vhdx-temp.tar" none,
         Event.WslRegisterDistribution "Distro" "C:\\Temp\\em-vhdx-temp.tar"
           (some "the distribution name is already registered")] ∧
    (InstallExt4Vhdx (plainEnv "C:\\wsl") "Distro" "C:\\img\\a.ext4.vhdx"
        (World.init (oneFile "C:\\img\\a.ext4.vhdx" [5, 6]) [⟨"Distro", "C:\\old", 7, []⟩])).2.fs
      "C:\\Temp\\em-vhdx-temp.tar" = some [] := by
  decide

/-- The deferred removal in `Install`: once the name of the temporary file has
been made up, the file is absent when `Install` returns, whether the download
failed, the digest did not match, or the installer ran. -/
theorem Install_removes_download {ρ : Type} (env : Env ρ) (name rootPath sha256Sum : String)
    (showProgress : Bool) (w : World ρ)
    (hurl : (HasPrefix (ToLower rootPath) "http://"
      || HasPrefix (ToLower rootPath) "https://") = true)
    (htmp : env.os.TempDir ≠ "") :
    (Install env name rootPath sha256Sum showProgress w).2.fs
      (env.os.file (env.os.TempDir ++ "\\" ++ Itoa (env.os.Intn 10000) ++ env.os.Base rootPath))
      = none := by
  unfold Install acquire
  simp only [hurl, htmp, ↓reduceIte]
  generalize DownloadFile env rootPath _ _ _ = d
  rcases d with ⟨⟨sum, _ | e⟩, w1⟩ <;> simp [osRemove, setFile]

/-- The placeholder archive of `InstallExt4Vhdx` on a failed registration, for
every environment: the function returns the error of the registration and the
archive it has just created is still there. -/
theorem InstallExt4Vhdx_failed_registration {ρ : Type} (env : Env ρ) (name rootPath : String)
    (w : World ρ) (err : Err) (rt1 : ρ)
    (htmp : env.os.TempDir ≠ "")
    (hcreate : env.os.createErr (env.os.TempDir ++ "\\em-vhdx-temp.tar") = none)
    (hreg : env.wsl.WslRegisterDistribution name (env.os.TempDir ++ "\\em-vhdx-temp.tar") w.rt
      = (some err, rt1)) :
    (InstallExt4Vhdx env name rootPath w).1 = some err ∧
    (InstallExt4Vhdx env name rootPath w).2.fs
      (env.os.file (env.os.TempDir ++ "\\em-vhdx-temp.tar")) = some [] := by
  simp [InstallExt4Vhdx, htmp, hcreate, hreg, osCreate, WslRegisterDistribution, setFile]

end Wsldl
